import Mathlib

/-!
Verification development for the neon-trace backend core (src/index.js).

The push-notification dispatch subsystem, the FCM credential cache and the
route resolver are shallowly embedded below.  Pure helpers (`toLL`, the
candidate selection loop) become Lean functions; the stateful credential
cache becomes an explicit state-passing function; the network is modelled
by outcome oracles (one outcome per outbound request).  JavaScript numbers
appearing in coordinates and distances are modelled as rationals (only
order and equality of concrete decimal literals matter to the claims);
epoch times are modelled as integers of milliseconds, exactly as the code
computes with them.
-/

/-- A JavaScript number as observed by `toLL`: either a finite value or a
non-finite one (`NaN`, `±Infinity`), which `isFinite` rejects. -/
inductive JsNum
  | num (q : ℚ)
  | nonfinite
deriving DecidableEq

/-- The input shapes `toLL` distinguishes: an object with numeric `lat` and
`lng` fields, an array of numbers, or anything else. -/
inductive CoordInput
  | obj (lat lng : JsNum)
  | arr (elems : List JsNum)
  | other
deriving DecidableEq

/-- The `{lat, lng}` record produced by `toLL` (src/index.js:310). -/
structure LL where
  lat : JsNum
  lng : JsNum
deriving DecidableEq

/-- Embedding of `toLL` (src/index.js:309-318).  An object with numeric
fields is returned unchanged; an array of length ≥ 2 whose first two
elements are finite is returned as `[lat, lng]` when those bounds hold and
otherwise axis-swapped without a further bound check; everything else
throws `invalid coordinate`. -/
def toLL : CoordInput → Except String LL
  | .obj la ln => .ok ⟨la, ln⟩
  | .arr (a :: b :: _) =>
      match a, b with
      | .num qa, .num qb =>
          if |qa| ≤ 90 ∧ |qb| ≤ 180 then .ok ⟨.num qa, .num qb⟩
          else .ok ⟨.num qb, .num qa⟩
      | _, _ => .error "invalid coordinate"
  | _ => .error "invalid coordinate"

/-- Timeout of the OAuth2 token-exchange POST (src/index.js:356). -/
def tokenExchangeTimeoutMs : Nat := 15000

/-- Timeout of each per-recipient modern send POST (src/index.js:151). -/
def modernSendTimeoutMs : Nat := 20000

/-- Timeout of each legacy batch POST (src/index.js:161). -/
def legacySendTimeoutMs : Nat := 20000

/-- Timeout of the first route request POST (src/index.js:256). -/
def routeRequestTimeoutMs : Nat := 20000

/-- Timeout of the route retry POST (src/index.js:261). -/
def routeRetryTimeoutMs : Nat := 20000

/-- Deadlines of every outbound network request made by the core, in the
order token exchange, modern send, legacy batch send, route request, route
retry. -/
def coreOutboundTimeoutsMs : List Nat :=
  [tokenExchangeTimeoutMs, modernSendTimeoutMs, legacySendTimeoutMs,
   routeRequestTimeoutMs, routeRetryTimeoutMs]

/-- A coerced coordinate pair as used by the route handler (both endpoints
have already passed `toLL`, so the components are plain numbers). -/
structure Coord where
  lat : ℚ
  lng : ℚ
deriving DecidableEq

/-- The `alternative_routes` option object (src/index.js:252). -/
structure AltRoutes where
  target_count : Nat
  share_factor : ℚ
deriving DecidableEq

/-- The request body sent to the directions provider. -/
structure OrsBody where
  coordinates : List (ℚ × ℚ)
  instructions : Bool
  options : Option AltRoutes
deriving DecidableEq

/-- An axios failure as discriminated by the route handler: either the
provider responded with an HTTP error status (`e.response` present), or
the request failed in transport (timeout / connection, no response). -/
inductive OrsErr
  | status (code : Nat)
  | network
deriving DecidableEq

/-- One route candidate's summary fields (`f.properties?.summary`), where a
missing `distance` or `duration` is `none` (src/index.js:274-279). -/
structure Feature where
  distance : Option ℚ
  duration : Option ℚ
deriving DecidableEq

/-- The `baseBody` of the route request (src/index.js:248-251): coordinates
in provider `[lng, lat]` order, `instructions: false`, no options. -/
def baseBody (a b : Coord) : OrsBody :=
  ⟨[(a.lng, a.lat), (b.lng, b.lat)], false, none⟩

/-- The first-attempt body (src/index.js:252): `baseBody` plus
`options.alternative_routes = { target_count: 3, share_factor: 0.6 }`. -/
def fullBody (a b : Coord) : OrsBody :=
  { baseBody a b with options := some ⟨3, 3 / 5⟩ }

/-- The route handler's catch condition `e.response && e.response.status
=== 400` (src/index.js:260): the axios error carries a response whose
status is exactly 400. -/
def isStatus400 (e : OrsErr) : Bool := decide (e = OrsErr.status 400)

/-- Embedding of the route handler's fetch-with-fallback (src/index.js:
254-266), continued.  `send` is the network oracle giving each request
body's result.  Returns the data outcome together with the list of request
bodies actually issued, in order.  A 400 response to the first attempt
triggers exactly one retry with `baseBody` (options omitted, and no catch
around the retry); any other failure propagates at once. -/
def routeFetch (send : OrsBody → Except OrsErr (List Feature)) (a b : Coord) :
    Except OrsErr (List Feature) × List OrsBody :=
  match send (fullBody a b) with
  | .ok d => (.ok d, [fullBody a b])
  | .error e =>
      if isStatus400 e then (send (baseBody a b), [fullBody a b, baseBody a b])
      else (.error e, [fullBody a b])

/-- The comparison `(x ?? Infinity) < (y ?? Infinity)` used by the
shortest-candidate loop (src/index.js:274), with `none` playing
`Infinity`. -/
def distLtB (x y : Option ℚ) : Bool :=
  match x, y with
  | some a, some b => a < b
  | some _, none => true
  | none, _ => false

/-- One step of the selection loop: keep `best` unless `f` is strictly
nearer (src/index.js:272-275). -/
def pickStep (best f : Feature) : Feature :=
  if distLtB f.distance best.distance then f else best

/-- Embedding of the shortest-candidate selection (src/index.js:272-275):
`best = features[0]`, then fold the comparison over the whole list.
Returns `none` only on the empty list (the handler has already thrown
`No route returned` in that case). -/
def pickBest : List Feature → Option Feature
  | [] => none
  | f :: fs => some ((f :: fs).foldl pickStep f)

/-- Example candidate list from the spec: distances `[120.5, 95.0, null]`. -/
def exampleFeatures : List Feature :=
  [⟨some (241 / 2), none⟩, ⟨some 95, none⟩, ⟨none, none⟩]

/-- The parsed service-account identity (`client_email`, `private_key`). -/
structure ServiceAccount where
  client_email : String
  private_key : String
deriving DecidableEq

/-- State of the `FCM_SERVICE_ACCOUNT` environment variable as
`getFcmAccessToken` sees it: unset/empty, set but not valid JSON, or
parsed successfully (src/index.js:341-344). -/
inductive SAConfig
  | absent
  | malformed
  | valid (sa : ServiceAccount)
deriving DecidableEq

/-- The module-level credential cache `_fcmAuth` (src/index.js:338):
`token` and its expiry in epoch milliseconds.  The initial value is
`{ token: null, exp: 0 }`. -/
structure FcmAuth where
  token : Option String
  exp : Int
deriving DecidableEq

/-- Initial `_fcmAuth` value (src/index.js:338). -/
def initialFcmAuth : FcmAuth := ⟨none, 0⟩

/-- The token endpoint's response body fields read by the code
(src/index.js:357): `access_token` and `expires_in` (seconds), either of
which may be missing. -/
structure ExchangeData where
  access_token : Option String
  expires_in : Option Nat
deriving DecidableEq

/-- Count of signing and token-exchange operations performed by one
`getFcmAccessToken` call: the signed-assertion construction and the
form-encoded POST to the token endpoint are each counted once per refresh
and zero times on a cache hit. -/
structure RefreshTrace where
  signs : Nat
  exchanges : Nat
deriving DecidableEq

/-- `expires_in || 3600` (src/index.js:359): a missing field, and a `0`
value (falsy in JavaScript), both default to 3600 seconds. -/
def effectiveExpiresIn (x : ExchangeData) : Nat :=
  match x.expires_in with
  | none => 3600
  | some 0 => 3600
  | some n => n

/-- The refresh path of `getFcmAccessToken` (src/index.js:347-360): build
and sign the assertion (counted in the trace; the JWT bytes themselves do
not influence control flow), POST it to the token endpoint (`xresp` is the
response oracle), throw `token_exchange_failed` when no access token comes
back, else store `{ token, exp: nowMs + expiresIn*1000 }` and return the
token. -/
def fcmRefresh (nowMs : Nat) (xresp : ExchangeData) (st : FcmAuth) :
    Except String String × FcmAuth × RefreshTrace :=
  match xresp.access_token with
  | none => (.error "token_exchange_failed", st, ⟨1, 1⟩)
  | some tok =>
      (.ok tok, ⟨some tok, (nowMs : Int) + effectiveExpiresIn xresp * 1000⟩, ⟨1, 1⟩)

/-- Embedding of `getFcmAccessToken` (src/index.js:340-361).  `nowMs` is
`Date.now()` at the call; `now = Math.floor(Date.now()/1000)` is its
whole-second floor.  The cached token is returned, with no signing and no
network I/O, exactly when one is present and `_fcmAuth.exp - 60*5 >
now*1000` — note the source subtracts `60*5 = 300` from a millisecond
quantity.  Otherwise the refresh path runs. -/
def getFcmAccessToken (cfg : SAConfig) (nowMs : Nat) (xresp : ExchangeData)
    (st : FcmAuth) : Except String String × FcmAuth × RefreshTrace :=
  match cfg with
  | .absent => (.error "missing_service_account", st, ⟨0, 0⟩)
  | .malformed => (.error "invalid_service_account_json", st, ⟨0, 0⟩)
  | .valid _sa =>
      let now : Nat := nowMs / 1000
      match st.token with
      | some t =>
          if st.exp - 60 * 5 > (now : Int) * 1000 then (.ok t, st, ⟨0, 0⟩)
          else fcmRefresh nowMs xresp st
      | none => fcmRefresh nowMs xresp st

/-- Configuration read by the broadcast handler (src/index.js:140-141,18):
the raw `FCM_SERVICE_ACCOUNT` string, the `FCM_PROJECT_ID` variable, the
`project_id` field recovered by `JSON.parse(saJson||'{}')` (none when the
parse throws or the field is missing), and the legacy `FCM_SERVER_KEY`
(`FCM_KEY`).  Empty strings are falsy in the source and are modelled as
`none`. -/
structure BEnv where
  fcmServiceAccount : Option String
  fcmProjectId : Option String
  saProjectId : Option String
  fcmKey : Option String

/-- `process.env.FCM_PROJECT_ID || JSON.parse(saJson||'{}').project_id`
(src/index.js:141). -/
def derivedProjectId (env : BEnv) : Option String :=
  match env.fcmProjectId with
  | some p => some p
  | none => env.saProjectId

/-- State of the modern fan-out loop (src/index.js:148-156): the counters,
the `inflight` window accumulated so far (recorded as each pending
request's eventual outcome, `true` = 2xx), the sizes of the windows
already awaited, and the number of `axios.post` calls issued. -/
structure ModernState where
  sent : Nat
  failed : Nat
  inflight : List Bool
  windows : List Nat
  requests : Nat
deriving DecidableEq

/-- `await Promise.all(inflight); inflight = []` — every pending request
settles, incrementing `sent` on success and `failed` on any error, the
window's size is recorded, and the window empties (src/index.js:154). -/
def settleWindow (s : ModernState) : ModernState :=
  ⟨s.sent + s.inflight.count true, s.failed + s.inflight.count false,
   [], s.windows ++ [s.inflight.length], s.requests⟩

/-- One iteration of `for (const t of tokens)` (src/index.js:150-155):
issue the request (outcome `ok`), push it on `inflight`, and await the
window once it holds `maxC = 10` requests. -/
def modernStep (s : ModernState) (ok : Bool) : ModernState :=
  let s1 : ModernState :=
    ⟨s.sent, s.failed, s.inflight ++ [ok], s.windows, s.requests + 1⟩
  if 10 ≤ s1.inflight.length then settleWindow s1 else s1

/-- The whole modern fan-out (src/index.js:148-156): fold the loop over
the per-recipient outcomes, then `if (inflight.length) await
Promise.all(inflight)` for the final partial window. -/
def modernBroadcast (outcomes : List Bool) : ModernState :=
  let s := outcomes.foldl modernStep ⟨0, 0, [], [], 0⟩
  if s.inflight.length ≠ 0 then settleWindow s else s

/-- The legacy endpoint's observable answer for one batch POST
(src/index.js:161): either the request threw (timeout / transport) — the
catch substitutes `{ failure: batch.length, success: 0 }` — or a response
body arrived carrying `success` and `failure` counts. -/
inductive BatchResp
  | transportErr
  | ok (success failure : Nat)
deriving DecidableEq

/-- `sent += Number(r.success||0); failed += Number(r.failure||0)` for one
batch of the given length (src/index.js:161-163), with the catch handler
folded in: a transport error contributes `(0, batch.length)`. -/
def batchCounts (batchLen : Nat) : BatchResp → Nat × Nat
  | .transportErr => (0, batchLen)
  | .ok s f => (s, f)

/-- Result of the legacy loop: final counters plus the sizes of the
batches POSTed, in order. -/
structure LegacyState where
  sent : Nat
  failed : Nat
  batchSizes : List Nat
deriving DecidableEq

/-- The legacy batch loop `for (let i=0; i<tokens.length; i+=900)`
(src/index.js:159-164): slice off up to 900 tokens, POST them (the
response oracle `resp` is indexed by batch number), add the reported
counts, and continue with the rest, strictly sequentially. -/
def legacyLoop (resp : Nat → BatchResp) (tokens : List String) (i : Nat)
    (sent failed : Nat) : LegacyState :=
  if h : tokens = [] then ⟨sent, failed, []⟩
  else
    let batch := tokens.take 900
    let c := batchCounts batch.length (resp i)
    let r := legacyLoop resp (tokens.drop 900) (i + 1) (sent + c.1) (failed + c.2)
    ⟨r.sent, r.failed, batch.length :: r.batchSizes⟩
termination_by tokens.length
decreasing_by
  simp only [List.length_drop]
  have : tokens.length ≠ 0 := fun hl => h (List.eq_nil_of_length_eq_zero hl)
  omega

/-- The legacy protocol branch as entered by the handler, with counters
starting at 0 (src/index.js:138,157-164). -/
def legacyBroadcast (tokens : List String) (resp : Nat → BatchResp) : LegacyState :=
  legacyLoop resp tokens 0 0 0

/-- The JSON value the broadcast handler answers with: either
`{ ok: true, sent, failed, total }` (src/index.js:169) or
`res.status(s).json({ error })` (src/index.js:166,171). -/
inductive BroadcastResp
  | okResp (sent failed total : Nat)
  | errorResp (status : Nat) (msg : String)
deriving DecidableEq

/-- Observable side effects of one broadcast invocation: whether
`getFcmAccessToken` was invoked, how many per-recipient modern sends were
issued, the modern window sizes, the legacy batch sizes, and the final
values of the `sent` / `failed` counters. -/
structure BroadcastTrace where
  tokenAttempted : Bool
  modernSendCount : Nat
  modernWindows : List Nat
  legacyBatchSizes : List Nat
  sentCtr : Nat
  failedCtr : Nat
deriving DecidableEq

/-- Embedding of the `POST /api/push/broadcast` handler's dispatch section
(src/index.js:138-172).  `tokenRes` abstracts the outcome of the
`getFcmAccessToken()` await (its own behaviour is the separate
`getFcmAccessToken` model above); `modernOk i` is the outcome of the
`i`-th recipient's modern send; `legacyResp` is the legacy batch oracle.
Protocol selection follows the source exactly: modern when
`saJson && projectId`, else legacy when `FCM_KEY`, else the 500
`server_missing_fcm_credentials` response.  A thrown token acquisition is
caught by the handler's try/catch and becomes a 500 response with the
error message, before any send is issued. -/
def broadcast (env : BEnv) (tokenRes : Except String String)
    (tokens : List String) (modernOk : Nat → Bool)
    (legacyResp : Nat → BatchResp) : BroadcastResp × BroadcastTrace :=
  if env.fcmServiceAccount.isSome ∧ (derivedProjectId env).isSome then
    match tokenRes with
    | .error e => (.errorResp 500 e, ⟨true, 0, [], [], 0, 0⟩)
    | .ok _bearer =>
        let st := modernBroadcast ((List.range tokens.length).map modernOk)
        (.okResp st.sent st.failed tokens.length,
         ⟨true, st.requests, st.windows, [], st.sent, st.failed⟩)
  else if env.fcmKey.isSome then
    let st := legacyBroadcast tokens legacyResp
    (.okResp st.sent st.failed tokens.length,
     ⟨false, 0, [], st.batchSizes, st.sent, st.failed⟩)
  else
    (.errorResp 500 "server_missing_fcm_credentials", ⟨false, 0, [], [], 0, 0⟩)

/-! ## Helper lemmas -/

lemma distLtB_irrefl (x : Option ℚ) : distLtB x x = false := by
  cases x with
  | none => rfl
  | some a => simp [distLtB]

lemma distLtB_asymm {x y : Option ℚ} (h1 : distLtB x y = true)
    (h2 : distLtB y x = true) : False := by
  cases x <;> cases y <;> simp [distLtB] at h1 h2 <;> linarith

lemma distLtB_lt_of_lt_of_not_lt {x y z : Option ℚ}
    (h1 : distLtB x y = true) (h2 : distLtB z y = false) :
    distLtB x z = true := by
  cases x <;> cases y <;> cases z <;> simp [distLtB] at h1 h2 ⊢ <;> linarith

lemma pickFold_spec (l : List Feature) : ∀ i : Feature,
    (l.foldl pickStep i = i ∨ l.foldl pickStep i ∈ l) ∧
    distLtB i.distance (l.foldl pickStep i).distance = false ∧
    ∀ g ∈ l, distLtB g.distance (l.foldl pickStep i).distance = false := by
  induction l with
  | nil => intro i; simpa using distLtB_irrefl i.distance
  | cons g gs ih =>
    intro i
    simp only [List.foldl_cons]
    by_cases hgi : distLtB g.distance i.distance = true
    · have hstep : pickStep i g = g := by simp [pickStep, hgi]
      rw [hstep]
      obtain ⟨hmem, hle, hall⟩ := ih g
      refine ⟨?_, ?_, ?_⟩
      · rcases hmem with h | h
        · exact Or.inr (by rw [h]; exact List.mem_cons_self g gs)
        · exact Or.inr (List.mem_cons_of_mem g h)
      · by_contra hb
        rw [Bool.not_eq_false] at hb
        exact distLtB_asymm (distLtB_lt_of_lt_of_not_lt hb hle) hgi
      · intro f hf
        rcases List.mem_cons.mp hf with h | h
        · exact h ▸ hle
        · exact hall f h
    · have hgi2 : distLtB g.distance i.distance = false := by simpa using hgi
      have hstep : pickStep i g = i := by simp [pickStep, hgi2]
      rw [hstep]
      obtain ⟨hmem, hle, hall⟩ := ih i
      refine ⟨?_, hle, ?_⟩
      · rcases hmem with h | h
        · exact Or.inl h
        · exact Or.inr (List.mem_cons_of_mem g h)
      · intro f hf
        rcases List.mem_cons.mp hf with h | h
        · subst h
          by_contra hb
          rw [Bool.not_eq_false] at hb
          exact absurd (distLtB_lt_of_lt_of_not_lt hb hle) (by simpa using hgi)
        · exact hall f h

lemma count_true_add_count_false (l : List Bool) :
    l.count true + l.count false = l.length := by
  induction l with
  | nil => rfl
  | cons b t ih => cases b <;> simp [List.count_cons] <;> omega

lemma modernFold_inv (l : List Bool) : ∀ s : ModernState,
    s.inflight.length < 10 →
    (l.foldl modernStep s).requests = s.requests + l.length ∧
    (l.foldl modernStep s).inflight.length =
      (s.inflight.length + l.length) % 10 ∧
    (l.foldl modernStep s).windows.length =
      s.windows.length + (s.inflight.length + l.length) / 10 ∧
    (∀ w ∈ (l.foldl modernStep s).windows, w ∈ s.windows ∨ w = 10) ∧
    (l.foldl modernStep s).sent + (l.foldl modernStep s).failed +
        (l.foldl modernStep s).inflight.length =
      s.sent + s.failed + s.inflight.length + l.length ∧
    (l.foldl modernStep s).windows.sum +
        (l.foldl modernStep s).inflight.length =
      s.windows.sum + s.inflight.length + l.length := by
  induction l with
  | nil =>
    intro s hs
    simp only [List.foldl_nil, List.length_nil]
    refine ⟨rfl, by omega, by omega, fun w hw => Or.inl hw, by omega, by omega⟩
  | cons o rest ih =>
    intro s hs
    simp only [List.foldl_cons, List.length_cons]
    by_cases hfull : s.inflight.length + 1 = 10
    · have hstep : modernStep s o =
          ⟨s.sent + (s.inflight ++ [o]).count true,
           s.failed + (s.inflight ++ [o]).count false,
           [], s.windows ++ [s.inflight.length + 1], s.requests + 1⟩ := by
        simp [modernStep, settleWindow, hfull]
      rw [hstep]
      obtain ⟨h1, h2, h3, h4, h5, h6⟩ :=
        ih ⟨s.sent + (s.inflight ++ [o]).count true,
            s.failed + (s.inflight ++ [o]).count false,
            [], s.windows ++ [s.inflight.length + 1], s.requests + 1⟩
          (by simp)
      have hcnt : (s.inflight ++ [o]).count true +
          (s.inflight ++ [o]).count false = s.inflight.length + 1 := by
        have := count_true_add_count_false (s.inflight ++ [o])
        simpa using this
      simp only [List.length_append, List.length_cons, List.length_nil,
        List.sum_append, List.sum_cons, List.sum_nil] at h1 h2 h3 h4 h5 h6
      refine ⟨by omega, by omega, by omega, ?_, by omega, by omega⟩
      intro w hw
      rcases h4 w hw with h | h
      · rcases List.mem_append.mp h with h | h
        · exact Or.inl h
        · simp only [List.mem_singleton] at h
          omega
      · exact Or.inr h
    · have hstep : modernStep s o =
          ⟨s.sent, s.failed, s.inflight ++ [o], s.windows, s.requests + 1⟩ := by
        simp only [modernStep, List.length_append, List.length_cons, List.length_nil]
        rw [if_neg (by omega)]
      rw [hstep]
      obtain ⟨h1, h2, h3, h4, h5, h6⟩ :=
        ih ⟨s.sent, s.failed, s.inflight ++ [o], s.windows, s.requests + 1⟩
          (by simp only [List.length_append, List.length_cons, List.length_nil]; omega)
      simp only [List.length_append, List.length_cons, List.length_nil,
        List.sum_append, List.sum_cons, List.sum_nil] at h1 h2 h3 h4 h5 h6
      exact ⟨by omega, by omega, by omega, h4, by omega, by omega⟩

lemma modernBroadcast_spec (outcomes : List Bool) :
    (modernBroadcast outcomes).requests = outcomes.length ∧
    (modernBroadcast outcomes).windows.length = (outcomes.length + 9) / 10 ∧
    (∀ w ∈ (modernBroadcast outcomes).windows, 0 < w ∧ w ≤ 10) ∧
    (modernBroadcast outcomes).windows.sum = outcomes.length ∧
    (modernBroadcast outcomes).sent + (modernBroadcast outcomes).failed =
      outcomes.length ∧
    (modernBroadcast outcomes).inflight = [] := by
  obtain ⟨h1, h2, h3, h4, h5, h6⟩ :=
    modernFold_inv outcomes ⟨0, 0, [], [], 0⟩ (by simp)
  simp only [List.length_nil, List.sum_nil, List.not_mem_nil, false_or,
    Nat.zero_add] at h1 h2 h3 h4 h5 h6
  set s := outcomes.foldl modernStep ⟨0, 0, [], [], 0⟩ with hsdef
  unfold modernBroadcast
  rw [← hsdef]
  by_cases hrem : s.inflight.length ≠ 0
  · rw [if_pos hrem]
    unfold settleWindow
    have hcnt := count_true_add_count_false s.inflight
    simp only [List.length_append, List.length_cons, List.length_nil,
      List.sum_append, List.sum_cons, List.sum_nil]
    refine ⟨h1, by omega, ?_, by omega, by omega, by trivial⟩
    intro w hw
    simp only [List.mem_append, List.mem_singleton] at hw
    rcases hw with h | h
    · have := h4 w h
      omega
    · omega
  · rw [if_neg hrem]
    push_neg at hrem
    refine ⟨h1, by omega, fun w hw => ?_, by omega, by omega,
      List.eq_nil_of_length_eq_zero hrem⟩
    have := h4 w hw
    omega

lemma legacyLoop_nil (resp : Nat → BatchResp) (i sent failed : Nat) :
    legacyLoop resp [] i sent failed = ⟨sent, failed, []⟩ := by
  rw [legacyLoop]
  simp

lemma legacyLoop_cons (resp : Nat → BatchResp) (tokens : List String)
    (i sent failed : Nat) (h : tokens ≠ []) :
    legacyLoop resp tokens i sent failed =
      ⟨(legacyLoop resp (tokens.drop 900) (i + 1)
          (sent + (batchCounts (tokens.take 900).length (resp i)).1)
          (failed + (batchCounts (tokens.take 900).length (resp i)).2)).sent,
       (legacyLoop resp (tokens.drop 900) (i + 1)
          (sent + (batchCounts (tokens.take 900).length (resp i)).1)
          (failed + (batchCounts (tokens.take 900).length (resp i)).2)).failed,
       (tokens.take 900).length ::
         (legacyLoop resp (tokens.drop 900) (i + 1)
            (sent + (batchCounts (tokens.take 900).length (resp i)).1)
            (failed + (batchCounts (tokens.take 900).length (resp i)).2)).batchSizes⟩ := by
  rw [legacyLoop, dif_neg h]

lemma legacyLoop_sizes (resp : Nat → BatchResp) :
    ∀ n (tokens : List String), tokens.length ≤ n → ∀ i sent failed,
    (legacyLoop resp tokens i sent failed).batchSizes.length =
      (tokens.length + 899) / 900 ∧
    (legacyLoop resp tokens i sent failed).batchSizes.sum = tokens.length ∧
    ∀ b ∈ (legacyLoop resp tokens i sent failed).batchSizes,
      0 < b ∧ b ≤ 900 := by
  intro n
  induction n with
  | zero =>
    intro tokens hlen i sent failed
    have : tokens = [] := List.eq_nil_of_length_eq_zero (by omega)
    subst this
    rw [legacyLoop_nil]
    simp
  | succ n ih =>
    intro tokens hlen i sent failed
    by_cases h : tokens = []
    · subst h
      rw [legacyLoop_nil]
      simp
    · have hpos : 0 < tokens.length := List.length_pos.mpr h
      rw [legacyLoop_cons resp tokens i sent failed h]
      obtain ⟨h1, h2, h3⟩ :=
        ih (tokens.drop 900)
          (by simp only [List.length_drop]; omega) (i + 1)
          (sent + (batchCounts (tokens.take 900).length (resp i)).1)
          (failed + (batchCounts (tokens.take 900).length (resp i)).2)
      simp only [List.length_drop] at h1 h2
      have htake : (tokens.take 900).length = min 900 tokens.length :=
        List.length_take _ _
      refine ⟨?_, ?_, ?_⟩
      · simp only [List.length_cons, h1]
        omega
      · simp only [List.sum_cons, h2]
        omega
      · intro b hb
        rcases List.mem_cons.mp hb with hb | hb
        · subst hb
          rw [htake]
          omega
        · exact h3 b hb

lemma legacyLoop_counts_le (resp : Nat → BatchResp) :
    ∀ n (tokens : List String), tokens.length ≤ n → ∀ i sent failed,
    (∀ k s f, 900 * k < tokens.length → resp (i + k) = .ok s f →
        s + f ≤ min 900 (tokens.length - 900 * k)) →
    (legacyLoop resp tokens i sent failed).sent +
        (legacyLoop resp tokens i sent failed).failed ≤
      sent + failed + tokens.length := by
  intro n
  induction n with
  | zero =>
    intro tokens hlen i sent failed _
    have : tokens = [] := List.eq_nil_of_length_eq_zero (by omega)
    subst this
    rw [legacyLoop_nil]
    simp
  | succ n ih =>
    intro tokens hlen i sent failed hresp
    by_cases h : tokens = []
    · subst h
      rw [legacyLoop_nil]
      simp
    · have hpos : 0 < tokens.length := List.length_pos.mpr h
      rw [legacyLoop_cons resp tokens i sent failed h]
      have htake : (tokens.take 900).length = min 900 tokens.length :=
        List.length_take _ _
      have hc : (batchCounts (tokens.take 900).length (resp i)).1 +
          (batchCounts (tokens.take 900).length (resp i)).2 ≤
          (tokens.take 900).length := by
        cases hr : resp i with
        | transportErr => simp [batchCounts]
        | ok s f =>
          simp only [batchCounts]
          have := hresp 0 s f (by omega) (by simpa using hr)
          omega
      have hrec := ih (tokens.drop 900)
        (by simp only [List.length_drop]; omega) (i + 1)
        (sent + (batchCounts (tokens.take 900).length (resp i)).1)
        (failed + (batchCounts (tokens.take 900).length (resp i)).2)
        (by
          intro k s f hk hr
          have hik : i + 1 + k = i + (k + 1) := by omega
          rw [hik] at hr
          simp only [List.length_drop] at hk
          have := hresp (k + 1) s f (by omega) hr
          simp only [List.length_drop]
          omega)
      simp only [List.length_drop] at hrec
      dsimp only
      omega

lemma legacyLoop_counts_eq (resp : Nat → BatchResp) :
    ∀ n (tokens : List String), tokens.length ≤ n → ∀ i sent failed,
    (∀ k s f, 900 * k < tokens.length → resp (i + k) = .ok s f →
        s + f = min 900 (tokens.length - 900 * k)) →
    (legacyLoop resp tokens i sent failed).sent +
        (legacyLoop resp tokens i sent failed).failed =
      sent + failed + tokens.length := by
  intro n
  induction n with
  | zero =>
    intro tokens hlen i sent failed _
    have : tokens = [] := List.eq_nil_of_length_eq_zero (by omega)
    subst this
    rw [legacyLoop_nil]
    simp
  | succ n ih =>
    intro tokens hlen i sent failed hresp
    by_cases h : tokens = []
    · subst h
      rw [legacyLoop_nil]
      simp
    · have hpos : 0 < tokens.length := List.length_pos.mpr h
      rw [legacyLoop_cons resp tokens i sent failed h]
      have htake : (tokens.take 900).length = min 900 tokens.length :=
        List.length_take _ _
      have hc : (batchCounts (tokens.take 900).length (resp i)).1 +
          (batchCounts (tokens.take 900).length (resp i)).2 =
          (tokens.take 900).length := by
        cases hr : resp i with
        | transportErr => simp [batchCounts]
        | ok s f =>
          simp only [batchCounts]
          have := hresp 0 s f (by omega) (by simpa using hr)
          omega
      have hrec := ih (tokens.drop 900)
        (by simp only [List.length_drop]; omega) (i + 1)
        (sent + (batchCounts (tokens.take 900).length (resp i)).1)
        (failed + (batchCounts (tokens.take 900).length (resp i)).2)
        (by
          intro k s f hk hr
          have hik : i + 1 + k = i + (k + 1) := by omega
          rw [hik] at hr
          simp only [List.length_drop] at hk
          have := hresp (k + 1) s f (by omega) hr
          simp only [List.length_drop]
          omega)
      simp only [List.length_drop] at hrec
      dsimp only
      omega

/-! ## Claim theorems -/

/-- C2, counterexample.  The claim's third and fourth coercion examples
fail on the code: `toLL [-73, 40]` satisfies the first-branch bounds
(|-73| ≤ 90, |40| ≤ 180) and so is read in `[lat, lng]` order, yielding
`{lat: -73, lng: 40}` rather than the claimed `{lat: 40, lng: -73}`; and
`toLL [999, 999]` falls through to the unconditional swap branch and
returns `{lat: 999, lng: 999}` instead of raising. -/
theorem toLL_claim_counterexample :
    toLL (.arr [.num (-73), .num 40]) = .ok ⟨.num (-73), .num 40⟩ ∧
    toLL (.arr [.num (-73), .num 40]) ≠ .ok ⟨.num 40, .num (-73)⟩ ∧
    toLL (.arr [.num 999, .num 999]) = .ok ⟨.num 999, .num 999⟩ := by
  refine ⟨rfl, ?_, rfl⟩
  rw [show toLL (.arr [.num (-73), .num 40]) =
    Except.ok (⟨.num (-73), .num 40⟩ : LL) from rfl]
  simp only [ne_eq, Except.ok.injEq, LL.mk.injEq, JsNum.num.injEq, not_and]
  intro h
  norm_num at h

/-- C2, amended.  The coercion `toLL` maps `{lat:40,lng:-73}` to itself
and `[40,-73]` to `{lat:40,lng:-73}` as claimed; but `[-73,40]` yields
`{lat:-73,lng:40}` (since `|-73| ≤ 90` the `[lat,lng]` reading is kept),
and `[999,999]` yields `{lat:999,lng:999}`: when the `[lat,lng]` bounds
fail but both entries are finite, the axes are swapped with no further
bound check, so every finite two-element pair coerces successfully and
only non-finite entries or non-pair inputs raise `InvalidCoordinateError`. -/
theorem toLL_coercion_amended :
    toLL (.obj (.num 40) (.num (-73))) = .ok ⟨.num 40, .num (-73)⟩ ∧
    toLL (.arr [.num 40, .num (-73)]) = .ok ⟨.num 40, .num (-73)⟩ ∧
    toLL (.arr [.num (-73), .num 40]) = .ok ⟨.num (-73), .num 40⟩ ∧
    toLL (.arr [.num 999, .num 999]) = .ok ⟨.num 999, .num 999⟩ ∧
    (∀ qa qb : ℚ, ∃ r : LL, toLL (.arr [.num qa, .num qb]) = .ok r) := by
  refine ⟨rfl, rfl, rfl, rfl, ?_⟩
  intro qa qb
  by_cases hb : |qa| ≤ 90 ∧ |qb| ≤ 180
  · exact ⟨⟨.num qa, .num qb⟩, by simp [toLL, hb]⟩
  · exact ⟨⟨.num qb, .num qa⟩, by simp [toLL, hb]⟩

/-- C4, counterexample.  Not every outbound request carries a 20-second
deadline: the token-exchange POST is sent with `timeout: 15000`
(src/index.js:356). -/
theorem outbound_timeout_claim_counterexample :
    ¬ ∀ t ∈ coreOutboundTimeoutsMs, t = 20000 := by
  decide

/-- C4, amended.  Every outbound request carries a fixed deadline: the
per-recipient modern send, the legacy batch send and both route requests
carry 20 seconds, while the token exchange carries 15 seconds.  (A timeout
rejects the promise and so counts as a failure for that recipient or
batch, which is the `false` / `transportErr` outcome of the dispatch
models above.) -/
theorem outbound_timeouts_amended :
    tokenExchangeTimeoutMs = 15000 ∧
    modernSendTimeoutMs = 20000 ∧ legacySendTimeoutMs = 20000 ∧
    routeRequestTimeoutMs = 20000 ∧ routeRetryTimeoutMs = 20000 := by
  decide

/-- C1, code bug.  The spec's 5-minute validity margin is not enforced:
the cache test `_fcmAuth.exp - 60*5 > now*1000` subtracts `300`
milliseconds (not `300000`) from the millisecond expiry, so a cached token
whose expiry is only 60 seconds away — far inside the 5-minute margin —
is still returned, with no signing and no exchange.  Here `nowMs = 0`,
the cached expiry is `60000` ms, and the call returns the cached token
with a zero refresh trace even though `60000 < 300000`. -/
theorem getFcmAccessToken_margin_bug :
    getFcmAccessToken (.valid ⟨"svc@example.com", "key"⟩) 0
        ⟨some "fresh", some 3600⟩ ⟨some "cached", 60000⟩
      = (.ok "cached", ⟨some "cached", 60000⟩, ⟨0, 0⟩) ∧
    (60000 : Int) - 0 < 5 * 60 * 1000 := by
  exact ⟨rfl, by decide⟩

/-- C6, confirmed.  On a 400 response to the first route request the
resolver retries exactly once, with the `options` field omitted from the
body, and the retry's own outcome — success or failure — is returned
unwrapped (no further retry); on any other error (e.g. a 500 response)
no retry happens and the error propagates; on success a single request is
issued.  The three oracles realise the three scenarios. -/
theorem routeFetch_retry_policy
    (s400 sErr sOk : OrsBody → Except OrsErr (List Feature))
    (a b : Coord) (e : OrsErr) (d : List Feature)
    (h1 : s400 (fullBody a b) = .error (.status 400))
    (h2 : sErr (fullBody a b) = .error e) (he : e ≠ .status 400)
    (h3 : sOk (fullBody a b) = .ok d) :
    routeFetch s400 a b = (s400 (baseBody a b), [fullBody a b, baseBody a b]) ∧
    routeFetch sErr a b = (.error e, [fullBody a b]) ∧
    routeFetch sOk a b = (.ok d, [fullBody a b]) ∧
    (baseBody a b).options = none ∧
    (fullBody a b).options = some ⟨3, 3 / 5⟩ := by
  refine ⟨?_, ?_, ?_, rfl, rfl⟩
  · simp [routeFetch, h1, isStatus400]
  · simp [routeFetch, h2, isStatus400, he]
  · simp [routeFetch, h3]

/-- C6, witness.  A concrete instantiation: the 400-oracle answers 400 to
the options-bearing body and a network failure to the retry (showing the
retry's failure propagating), the error oracle answers 500, and the ok
oracle answers an empty feature list. -/
theorem routeFetch_retry_policy_witness :
    routeFetch
        (fun body => if body.options.isSome then .error (.status 400)
          else .error .network)
        ⟨1, 2⟩ ⟨3, 4⟩ =
      (.error .network, [fullBody ⟨1, 2⟩ ⟨3, 4⟩, baseBody ⟨1, 2⟩ ⟨3, 4⟩]) ∧
    routeFetch (fun _ => .error (.status 500)) ⟨1, 2⟩ ⟨3, 4⟩ =
      (.error (.status 500), [fullBody ⟨1, 2⟩ ⟨3, 4⟩]) ∧
    routeFetch (fun _ => .ok []) ⟨1, 2⟩ ⟨3, 4⟩ =
      (.ok [], [fullBody ⟨1, 2⟩ ⟨3, 4⟩]) := by
  obtain ⟨w1, w2, w3, _, _⟩ := routeFetch_retry_policy
    (fun body => if body.options.isSome then .error (.status 400)
      else .error .network)
    (fun _ => .error (.status 500)) (fun _ => .ok [])
    ⟨1, 2⟩ ⟨3, 4⟩ (.status 500) [] (by rfl) (by rfl) (by decide) (by rfl)
  refine ⟨?_, w2, w3⟩
  rw [w1]
  rfl

/-- C7, confirmed.  For every non-empty candidate list the selection loop
returns a candidate of the list such that no candidate compares strictly
below it under the `?? Infinity` order — so it has the numerically
smallest present distance — and a candidate with no distance (infinite)
is returned only when no candidate of the list has a distance. -/
theorem pickBest_min_distance (l : List Feature) (hl : l ≠ []) :
    ∃ bst, pickBest l = some bst ∧ bst ∈ l ∧
      (∀ g ∈ l, distLtB g.distance bst.distance = false) ∧
      (bst.distance = none → ∀ g ∈ l, g.distance = none) := by
  rcases l with _ | ⟨f, fs⟩
  · exact absurd rfl hl
  · obtain ⟨hmem, hle, hall⟩ := pickFold_spec (f :: fs) f
    refine ⟨(f :: fs).foldl pickStep f, rfl, ?_, hall, ?_⟩
    · rcases hmem with h | h
      · rw [h]
        exact List.mem_cons_self f fs
      · exact h
    · intro hnone g hg
      have hgb := hall g hg
      rw [hnone] at hgb
      cases hgd : g.distance with
      | none => rfl
      | some q =>
        rw [hgd] at hgb
        simp [distLtB] at hgb

/-- C7, witness.  On the spec's example distances `[120.5, 95.0, null]`
the loop selects the `95.0` candidate, and the general selection theorem
applies to that list. -/
theorem pickBest_min_distance_witness :
    pickBest exampleFeatures = some ⟨some 95, none⟩ ∧
    (∃ bst, pickBest exampleFeatures = some bst ∧ bst ∈ exampleFeatures ∧
      (∀ g ∈ exampleFeatures, distLtB g.distance bst.distance = false) ∧
      (bst.distance = none → ∀ g ∈ exampleFeatures, g.distance = none)) := by
  refine ⟨?_, pickBest_min_distance exampleFeatures (by simp [exampleFeatures])⟩
  simp [pickBest, exampleFeatures, pickStep, distLtB]
  norm_num

/-- C8, counterexample.  "Exactly one refresh cycle when called after the
cached token's expiry" fails at sub-second distances: with the cached
expiry at 10400 ms and a call at 10999 ms — 599 ms after expiry — the
cache test floors the time to whole seconds (`now*1000 = 10000`) and
subtracts only a 300 ms margin, so `10400 - 300 > 10000` holds and the
stale token is returned with zero signings and zero exchanges. -/
theorem getToken_refresh_claim_counterexample :
    getFcmAccessToken (.valid ⟨"svc@example.com", "key"⟩) 10999
        ⟨some "fresh", some 3600⟩ ⟨some "cached", 10400⟩
      = (.ok "cached", ⟨some "cached", 10400⟩, ⟨0, 0⟩) ∧
    (10400 : Int) ≤ 10999 := by
  exact ⟨rfl, by decide⟩

/-- C8, amended.  `getToken` performs zero network calls (no signing, no
exchange, state unchanged) on every call made while the cached token's
expiry is more than 5 minutes away — in particular on two successive such
calls — and performs exactly one refresh cycle (one signing, one
token-exchange request) when called at least one second after the cached
expiry; the refresh stores the fresh token with its reported lifetime. -/
theorem getToken_cache_behavior (sa : ServiceAccount) (t tok : String)
    (stA stB : FcmAuth) (t1 t2 t3 : Nat) (xA xB : ExchangeData)
    (hA : stA.token = some t)
    (h1 : (t1 : Int) + 300000 < stA.exp) (h2 : (t2 : Int) + 300000 < stA.exp)
    (hB : stB.exp + 1000 ≤ (t3 : Int))
    (hx : xB.access_token = some tok) :
    getFcmAccessToken (.valid sa) t1 xA stA = (.ok t, stA, ⟨0, 0⟩) ∧
    getFcmAccessToken (.valid sa) t2 xA stA = (.ok t, stA, ⟨0, 0⟩) ∧
    getFcmAccessToken (.valid sa) t3 xB stB =
      (.ok tok, ⟨some tok, (t3 : Int) + effectiveExpiresIn xB * 1000⟩,
       ⟨1, 1⟩) := by
  have hcache : ∀ tc : Nat, (tc : Int) + 300000 < stA.exp →
      getFcmAccessToken (.valid sa) tc xA stA = (.ok t, stA, ⟨0, 0⟩) := by
    intro tc htc
    have hdm : tc / 1000 * 1000 ≤ tc := Nat.div_mul_le_self tc 1000
    simp only [getFcmAccessToken, hA]
    split
    · rfl
    · next hcond =>
      exfalso
      apply hcond
      have : ((tc / 1000 : Nat) : Int) * 1000 ≤ (tc : Int) := by
        exact_mod_cast hdm
      omega
  refine ⟨hcache t1 h1, hcache t2 h2, ?_⟩
  have hdm2 : t3 / 1000 * 1000 + 999 ≥ t3 := by omega
  simp only [getFcmAccessToken]
  cases htk : stB.token with
  | none => simp [fcmRefresh, hx]
  | some t0 =>
    dsimp only
    rw [if_neg ?_]
    · simp [fcmRefresh, hx]
    · intro hcond
      have : ((t3 / 1000 : Nat) : Int) * 1000 + 999 ≥ (t3 : Int) := by
        exact_mod_cast hdm2
      omega

/-- C8, witness.  Concrete run: a call at `t = 0` with the cached expiry
at 1,000,000 ms returns the cached token with no I/O, and a call at
`t = 2000` over a token expired at 0 performs one signing and one
exchange and stores the fresh token. -/
theorem getToken_cache_behavior_witness :
    getFcmAccessToken (.valid ⟨"svc@example.com", "key"⟩) 0 ⟨none, none⟩
        ⟨some "cached", 1000000⟩
      = (.ok "cached", ⟨some "cached", 1000000⟩, ⟨0, 0⟩) ∧
    getFcmAccessToken (.valid ⟨"svc@example.com", "key"⟩) 2000
        ⟨some "fresh", some 3600⟩ ⟨some "old", 0⟩
      = (.ok "fresh", ⟨some "fresh", (2000 : Int) + 3600 * 1000⟩, ⟨1, 1⟩) := by
  obtain ⟨w1, _, w3⟩ := getToken_cache_behavior ⟨"svc@example.com", "key"⟩
    "cached" "fresh" ⟨some "cached", 1000000⟩ ⟨some "old", 0⟩ 0 1000 2000
    ⟨none, none⟩ ⟨some "fresh", some 3600⟩ rfl (by decide) (by decide)
    (by decide) rfl
  exact ⟨w1, by simpa [effectiveExpiresIn] using w3⟩

/-- C3, confirmed.  Under the modern protocol (service account and project
id configured, token acquisition succeeded) a broadcast over any recipient
list of size N issues exactly N outbound send requests, grouped into
`ceil(N/10)` windows — each of size between 1 and 10, their sizes summing
to N, awaited strictly in sequence by construction of the loop — and on
completion `sent + failed = N` and the response is
`{ ok: true, sent, failed, total: N }`. -/
theorem broadcast_modern_windows (env : BEnv) (tokenRes : Except String String)
    (bearer : String) (tokens : List String) (modernOk : Nat → Bool)
    (legacyResp : Nat → BatchResp)
    (hsa : env.fcmServiceAccount.isSome = true)
    (hpid : (derivedProjectId env).isSome = true)
    (htok : tokenRes = .ok bearer) :
    (broadcast env tokenRes tokens modernOk legacyResp).2.modernSendCount =
      tokens.length ∧
    (broadcast env tokenRes tokens modernOk legacyResp).2.modernWindows.length =
      (tokens.length + 9) / 10 ∧
    (∀ w ∈ (broadcast env tokenRes tokens modernOk legacyResp).2.modernWindows,
      0 < w ∧ w ≤ 10) ∧
    (broadcast env tokenRes tokens modernOk legacyResp).2.modernWindows.sum =
      tokens.length ∧
    (broadcast env tokenRes tokens modernOk legacyResp).2.sentCtr +
        (broadcast env tokenRes tokens modernOk legacyResp).2.failedCtr =
      tokens.length ∧
    (broadcast env tokenRes tokens modernOk legacyResp).1 =
      .okResp (broadcast env tokenRes tokens modernOk legacyResp).2.sentCtr
        (broadcast env tokenRes tokens modernOk legacyResp).2.failedCtr
        tokens.length := by
  subst htok
  obtain ⟨m1, m2, m3, m4, m5, _⟩ :=
    modernBroadcast_spec ((List.range tokens.length).map modernOk)
  simp only [List.length_map, List.length_range] at m1 m2 m3 m4 m5
  unfold broadcast
  rw [if_pos ⟨hsa, hpid⟩]
  dsimp only
  exact ⟨m1, m2, m3, m4, m5, rfl⟩

/-- C3, witness.  A concrete modern broadcast over 13 recipients: 13
sends, two windows (10 and 3) summing to 13, and `sent + failed = 13`. -/
theorem broadcast_modern_windows_witness :
    (broadcast ⟨some "sa", some "pid", none, none⟩ (.ok "bearer")
        ["t01", "t02", "t03", "t04", "t05", "t06", "t07", "t08", "t09",
         "t10", "t11", "t12", "t13"]
        (fun i => decide (i % 3 = 0)) (fun _ => .transportErr)).2.modernSendCount
      = 13 ∧
    (broadcast ⟨some "sa", some "pid", none, none⟩ (.ok "bearer")
        ["t01", "t02", "t03", "t04", "t05", "t06", "t07", "t08", "t09",
         "t10", "t11", "t12", "t13"]
        (fun i => decide (i % 3 = 0)) (fun _ => .transportErr)).2.modernWindows.length
      = 2 ∧
    (broadcast ⟨some "sa", some "pid", none, none⟩ (.ok "bearer")
        ["t01", "t02", "t03", "t04", "t05", "t06", "t07", "t08", "t09",
         "t10", "t11", "t12", "t13"]
        (fun i => decide (i % 3 = 0)) (fun _ => .transportErr)).2.sentCtr +
      (broadcast ⟨some "sa", some "pid", none, none⟩ (.ok "bearer")
        ["t01", "t02", "t03", "t04", "t05", "t06", "t07", "t08", "t09",
         "t10", "t11", "t12", "t13"]
        (fun i => decide (i % 3 = 0)) (fun _ => .transportErr)).2.failedCtr
      = 13 := by
  obtain ⟨m1, m2, _, _, m5, _⟩ := broadcast_modern_windows
    ⟨some "sa", some "pid", none, none⟩ (.ok "bearer") "bearer"
    ["t01", "t02", "t03", "t04", "t05", "t06", "t07", "t08", "t09",
     "t10", "t11", "t12", "t13"]
    (fun i => decide (i % 3 = 0)) (fun _ => .transportErr) rfl rfl rfl
  exact ⟨by simpa using m1, by simpa using m2, by simpa using m5⟩

/-- C9, confirmed.  With neither a service identity (with derivable
project id) nor a legacy key configured, the broadcast answers the 500
`server_missing_fcm_credentials` error — the realisation of
`ConfigurationError` — with no token acquisition, no modern send, no
legacy batch, and both counters zero. -/
theorem broadcast_unconfigured (env : BEnv) (tokenRes : Except String String)
    (tokens : List String) (modernOk : Nat → Bool)
    (legacyResp : Nat → BatchResp)
    (hnomod : ¬(env.fcmServiceAccount.isSome ∧ (derivedProjectId env).isSome))
    (hnokey : env.fcmKey.isSome = false) :
    broadcast env tokenRes tokens modernOk legacyResp =
      (.errorResp 500 "server_missing_fcm_credentials",
       ⟨false, 0, [], [], 0, 0⟩) := by
  unfold broadcast
  rw [if_neg hnomod, if_neg (by simp [hnokey])]

/-- C9, witness.  The fully unconfigured environment answers the
configuration error and performs nothing. -/
theorem broadcast_unconfigured_witness :
    broadcast ⟨none, none, none, none⟩ (.error "boom") ["t1", "t2"]
        (fun _ => true) (fun _ => .transportErr) =
      (.errorResp 500 "server_missing_fcm_credentials",
       ⟨false, 0, [], [], 0, 0⟩) :=
  broadcast_unconfigured ⟨none, none, none, none⟩ (.error "boom") ["t1", "t2"]
    (fun _ => true) (fun _ => .transportErr) (by simp [derivedProjectId]) rfl

/-- C10, confirmed.  Under the modern protocol, a failing token
acquisition (missing or malformed service account, or an exchange that
returns no access token) aborts the broadcast before any dispatch: the
handler's catch turns the thrown message into a 500 error response, zero
per-recipient sends are issued, no window is formed, and both counters
stay 0. -/
theorem broadcast_token_failure (env : BEnv) (tokens : List String)
    (modernOk : Nat → Bool) (legacyResp : Nat → BatchResp) (e : String)
    (hsa : env.fcmServiceAccount.isSome = true)
    (hpid : (derivedProjectId env).isSome = true) :
    broadcast env (.error e) tokens modernOk legacyResp =
      (.errorResp 500 e, ⟨true, 0, [], [], 0, 0⟩) := by
  unfold broadcast
  rw [if_pos ⟨hsa, hpid⟩]

/-- C10, witness.  A token-exchange failure on a modern-configured
environment yields the 500 response with zero sends and zero counters. -/
theorem broadcast_token_failure_witness :
    broadcast ⟨some "sa", some "pid", none, some "legacy-key"⟩
        (.error "token_exchange_failed") ["t1", "t2", "t3"]
        (fun _ => true) (fun _ => .ok 3 0) =
      (.errorResp 500 "token_exchange_failed", ⟨true, 0, [], [], 0, 0⟩) :=
  broadcast_token_failure ⟨some "sa", some "pid", none, some "legacy-key"⟩
    ["t1", "t2", "t3"] (fun _ => true) (fun _ => .ok 3 0)
    "token_exchange_failed" rfl rfl

/-- C5, confirmed.  Under the legacy protocol a broadcast over N
recipients issues exactly `ceil(N/900)` batch requests — strictly
sequentially by construction of the loop — each of between 1 and 900
tokens, the batch sizes summing to N; a batch-level transport failure
counts the whole batch as failed (`batchCounts` yields `(0, batchLen)`);
the per-batch `success`/`failure` counts are summed into the totals, so
that `sent + failed ≤ N` whenever each response's counts do not exceed its
batch size (`respA`), with equality when no transport error occurs and
each response accounts exactly for its batch (`respB`); and the response
is `{ ok: true, sent, failed, total: N }`. -/
theorem broadcast_legacy_batches (env : BEnv) (tokenRes : Except String String)
    (tokens : List String) (modernOk : Nat → Bool)
    (respA respB : Nat → BatchResp)
    (hnomod : ¬(env.fcmServiceAccount.isSome ∧ (derivedProjectId env).isSome))
    (hkey : env.fcmKey.isSome = true)
    (hA : ∀ k s f, 900 * k < tokens.length → respA k = .ok s f →
        s + f ≤ min 900 (tokens.length - 900 * k))
    (hBnt : ∀ k, 900 * k < tokens.length → respB k ≠ .transportErr)
    (hB : ∀ k s f, 900 * k < tokens.length → respB k = .ok s f →
        s + f = min 900 (tokens.length - 900 * k)) :
    (broadcast env tokenRes tokens modernOk respA).2.legacyBatchSizes.length =
      (tokens.length + 899) / 900 ∧
    (broadcast env tokenRes tokens modernOk respA).2.legacyBatchSizes.sum =
      tokens.length ∧
    (∀ b ∈ (broadcast env tokenRes tokens modernOk respA).2.legacyBatchSizes,
      0 < b ∧ b ≤ 900) ∧
    (∀ n, batchCounts n .transportErr = (0, n)) ∧
    (broadcast env tokenRes tokens modernOk respA).2.sentCtr +
        (broadcast env tokenRes tokens modernOk respA).2.failedCtr ≤
      tokens.length ∧
    (broadcast env tokenRes tokens modernOk respB).2.sentCtr +
        (broadcast env tokenRes tokens modernOk respB).2.failedCtr =
      tokens.length ∧
    (broadcast env tokenRes tokens modernOk respA).1 =
      .okResp (broadcast env tokenRes tokens modernOk respA).2.sentCtr
        (broadcast env tokenRes tokens modernOk respA).2.failedCtr
        tokens.length := by
  have hbr : ∀ resp : Nat → BatchResp,
      broadcast env tokenRes tokens modernOk resp =
        (.okResp (legacyLoop resp tokens 0 0 0).sent
           (legacyLoop resp tokens 0 0 0).failed tokens.length,
         ⟨false, 0, [], (legacyLoop resp tokens 0 0 0).batchSizes,
          (legacyLoop resp tokens 0 0 0).sent,
          (legacyLoop resp tokens 0 0 0).failed⟩) := by
    intro resp
    unfold broadcast legacyBroadcast
    rw [if_neg hnomod, if_pos hkey]
  obtain ⟨s1, s2, s3⟩ := legacyLoop_sizes respA tokens.length tokens le_rfl 0 0 0
  have hle := legacyLoop_counts_le respA tokens.length tokens le_rfl 0 0 0
    (fun k s f hk hr => hA k s f hk (by simpa using hr))
  have heq := legacyLoop_counts_eq respB tokens.length tokens le_rfl 0 0 0
    (fun k s f hk hr => hB k s f hk (by simpa using hr))
  rw [hbr respA, hbr respB]
  dsimp only
  exact ⟨s1, s2, s3, fun n => rfl, by omega, by omega, rfl⟩

/-- C5, witness.  Three recipients make a single batch of three; the
transport-failing oracle keeps `sent + failed ≤ 3`, and the exact oracle
`{success: 2, failure: 1}` gives `sent + failed = 3`. -/
theorem broadcast_legacy_batches_witness :
    (broadcast ⟨none, none, none, some "legacy-key"⟩ (.error "no-token")
        ["a", "b", "c"] (fun _ => true)
        (fun _ => .transportErr)).2.legacyBatchSizes.length = 1 ∧
    (broadcast ⟨none, none, none, some "legacy-key"⟩ (.error "no-token")
        ["a", "b", "c"] (fun _ => true) (fun _ => .transportErr)).2.sentCtr +
      (broadcast ⟨none, none, none, some "legacy-key"⟩ (.error "no-token")
        ["a", "b", "c"] (fun _ => true) (fun _ => .transportErr)).2.failedCtr
      ≤ 3 ∧
    (broadcast ⟨none, none, none, some "legacy-key"⟩ (.error "no-token")
        ["a", "b", "c"] (fun _ => true) (fun _ => .ok 2 1)).2.sentCtr +
      (broadcast ⟨none, none, none, some "legacy-key"⟩ (.error "no-token")
        ["a", "b", "c"] (fun _ => true) (fun _ => .ok 2 1)).2.failedCtr
      = 3 := by
  obtain ⟨s1, _, _, _, h5, h6, _⟩ := broadcast_legacy_batches
    ⟨none, none, none, some "legacy-key"⟩ (.error "no-token") ["a", "b", "c"]
    (fun _ => true) (fun _ => .transportErr) (fun _ => .ok 2 1)
    (by simp [derivedProjectId]) rfl
    (by intro k s f hk hr; simp at hr)
    (by intro k hk; simp)
    (by
      intro k s f hk hr
      simp only [List.length_cons, List.length_nil] at hk ⊢
      have hk0 : k = 0 := by omega
      subst hk0
      injection hr with hs hf
      subst hs
      subst hf
      omega)
  exact ⟨by simpa using s1, by simpa using h5, by simpa using h6⟩
